import Mathlib

/-!
Verification development for the SDPLC simulated-PLC repository
(`ulfaric/SDPLC`).

The development shallowly embeds the parts of the code base that the
checked properties are about:

* the register codec — `sdplc/modbus/__init__.py` (`encoder` / `decoder`)
  together with the semantics of the `pymodbus` payload helpers
  (`BinaryPayloadBuilder` / `BinaryPayloadDecoder`) they delegate to;
* the Modbus memory map — `sdplc/modbus.py` (`ModBusSlave`,
  `SimPLCModBus`);
* the node registry and sync engine — `sdplc/sdplc.py` (`SDPLC.add_Node`,
  the per-node `sync_node` reconciler, `read_node`, `write_node`);
* configuration validation — `sdplc/schemas.py` (`Config.check_interfaces`).

Conventions used throughout:

* Python machine integers become `Int` / `Nat` with explicit `% 2 ^ w`
  where two's-complement truncation happens.
* Python `float` values are carried as their IEEE-754 bit pattern at the
  width of the register binding (a `Nat`); `struct.pack`/`unpack` of a
  float is a bijection onto bit patterns, so the codec pipeline is exact
  at this level (NaN payload canonicalisation is outside the model, as
  the spec itself allows).
* Python statements that mutate `self` and may raise become functions
  returning `State × Option PyErr`: the returned state includes every
  mutation performed before the raise, mirroring Python exception
  semantics.
* Fallible lookups (`dict[k]`, `list[i]`) become `Option`/`Except`.
* The fixed 65534-entry register arrays of `ModBusSlave` are modelled as
  total functions `Nat → _`; theorems about them carry the in-range
  hypotheses (`addr + width / 16 ≤ 65534`) under which the Python slice
  operations and the function model agree.
-/

/-- Endianness flag, `pymodbus.constants.Endian` (`BIG` / `LITTLE`). -/
inductive Endian where
  | big
  | little
deriving DecidableEq, Repr

/-- Dynamic scalar value of a node or register, Python `bool | int | float`.
A Python `float` is represented by its IEEE-754 bit pattern at the width of
the register binding that carries it. -/
inductive PyValue where
  | bool : Bool → PyValue
  | int : Int → PyValue
  | float : Nat → PyValue
deriving DecidableEq, Repr

/-- Scalar kind tag stored in register metadata, the Python literal strings
`"int"` / `"float"`. -/
inductive ScalarKind where
  | int
  | float
deriving DecidableEq, Repr

/-- Errors raised by the embedded code.  Each constructor stands for one
`raise` site in the source:

* `unsupported` — `ValueError("16 bit float is not supported.")`;
* `invalidWidth n` — `ValueError("Invalid length of bits, expected 16, 32
  or 64, but got <n>.")`;
* `alreadyOccupied` — the `ValueError(... is already occupied.)` raises of
  `ModBusSlave.add_*`;
* `keyError` — Python `KeyError` on a missing dict key;
* `indexError` — Python `IndexError` on an out-of-range list index;
* `runtimeError` — the `RuntimeError` raises of `sdplc.py`;
* `valueError` — other generic `ValueError` raises (such as the node-not-found
  raise of `write_node`). -/
inductive PyErr where
  | unsupported
  | invalidWidth : Nat → PyErr
  | alreadyOccupied
  | keyError
  | indexError
  | runtimeError
  | valueError
deriving DecidableEq, Repr

/-- Python `isinstance(value, int)`: true for `bool` and `int` values
(`bool` is a subclass of `int`). -/
def pyIsInt : PyValue → Bool
  | .bool _ => true
  | .int _ => true
  | .float _ => false

/-- Python `isinstance(value, float)`. -/
def pyIsFloat : PyValue → Bool
  | .float _ => true
  | _ => false

/-- Numeric reading of a Python value on the `isinstance(value, int)`
branch (`True` counts as `1`, `False` as `0`). -/
def pyToInt : PyValue → Int
  | .bool b => if b then 1 else 0
  | .int v => v
  | .float _ => 0

/-- Two's-complement bit pattern of a signed integer at width `w`, the
effect of `struct.pack` on a signed value. -/
def toUnsigned (w : Nat) (v : Int) : Nat := (v % (2 ^ w : Nat)).toNat

/-- Signed reading of a `w`-bit two's-complement pattern, the effect of
`struct.unpack` with a signed format character. -/
def toSigned (w : Nat) (x : Nat) : Int :=
  if x < 2 ^ (w - 1) then (x : Int) else (x : Int) - 2 ^ w

/-- Big-endian 16-bit word sequence of a bit pattern: `wordsBE n x` is the
`n`-word sequence produced by `struct.pack` with a big-endian format, most
significant word first. -/
def wordsBE : Nat → Nat → List Nat
  | 0, _ => []
  | n + 1, x => wordsBE n (x / 2 ^ 16) ++ [x % 2 ^ 16]

/-- Bit pattern reassembled from a big-endian 16-bit word sequence, the
effect of `struct.unpack` with a big-endian format. -/
def natFromWordsBE (ws : List Nat) : Nat :=
  ws.foldl (fun acc w => acc * 2 ^ 16 + w) 0

/-- Byte swap inside one 16-bit word, one step of `array("H", _).byteswap()`. -/
def bswap16 (w : Nat) : Nat := w % 2 ^ 8 * 2 ^ 8 + w / 2 ^ 8

/-- Word-level semantics of `BinaryPayloadBuilder._pack_words` /
`BinaryPayloadDecoder._unpack_words`: starting from the big-endian packed
words, a little byte order swaps the two bytes inside every 16-bit word
(`array.byteswap`), then a little word order reverses the word sequence
(`array.reverse`).  The builder and the decoder apply the identical
transformation. -/
def packWords (byte_order word_order : Endian) (ws : List Nat) : List Nat :=
  let ws1 := if byte_order = .little then ws.map bswap16 else ws
  if word_order = .little then ws1.reverse else ws1

/-- Word produced by `struct.pack(byteorder + "H", w)` followed by the
big-endian register read of `BinaryPayloadBuilder.to_registers`; and
symmetrically the word consumed by `decode_16bit_int` after
`BinaryPayloadDecoder.fromRegisters`.  A little byte order swaps the two
bytes of the single word. -/
def packSingle (byte_order : Endian) (w : Nat) : Nat :=
  if byte_order = .little then bswap16 w else w

/-- Embedding of `encoder` from `sdplc/modbus/__init__.py` (the body of
`SimPLCModBus.encoder` in `sdplc/modbus.py` is identical, with the byte
and word order taken from the singleton).  Integers take the
`isinstance(value, int)` branch (which includes `bool`); floats of size 16
raise; the registers are the words of the packed payload. -/
def encoder (value : PyValue) (size : Nat) (byte_order word_order : Endian) :
    Except PyErr (List Nat) :=
  if pyIsInt value then
    let v := pyToInt value
    if size = 16 then .ok [packSingle byte_order (toUnsigned 16 v)]
    else if size = 32 then .ok (packWords byte_order word_order (wordsBE 2 (toUnsigned 32 v)))
    else if size = 64 then .ok (packWords byte_order word_order (wordsBE 4 (toUnsigned 64 v)))
    else .ok []
  else if pyIsFloat value then
    match value with
    | .float p =>
      if size = 16 then .error .unsupported
      else if size = 32 then .ok (packWords byte_order word_order (wordsBE 2 p))
      else if size = 64 then .ok (packWords byte_order word_order (wordsBE 4 p))
      else .ok []
    | _ => .ok []
  else .ok []

/-- Embedding of `decoder` from `sdplc/modbus/__init__.py`.  The width is
implied by `len(bits)` (1, 2 or 4 registers); `decode_16bit_int` unpacks
the single word with the byte order, the multi-word decodes run the words
through `_unpack_words` (`packWords`, the same transformation the builder
applied) and read the result big-endian. -/
def decoder (bits : List Nat) (type : ScalarKind)
    (byte_order word_order : Endian) : Except PyErr PyValue :=
  if type = .float then
    if bits.length = 1 then .error .unsupported
    else if bits.length = 2 then
      .ok (.float (natFromWordsBE (packWords byte_order word_order bits)))
    else if bits.length = 4 then
      .ok (.float (natFromWordsBE (packWords byte_order word_order bits)))
    else .error (.invalidWidth bits.length)
  else
    if bits.length = 1 then
      .ok (.int (toSigned 16 (packSingle byte_order (bits.headD 0))))
    else if bits.length = 2 then
      .ok (.int (toSigned 32 (natFromWordsBE (packWords byte_order word_order bits))))
    else if bits.length = 4 then
      .ok (.int (toSigned 64 (natFromWordsBE (packWords byte_order word_order bits))))
    else .error (.invalidWidth bits.length)

deriving instance DecidableEq for Except

/-- Embedding of `SimPLCModBus.decoder` from `sdplc/modbus.py` (the method
version used by `read_holding_register` / `read_input_register` through the
module singleton).  Unlike the module-level `decoder` of
`sdplc/modbus/__init__.py`, this version branches on `len(bits) * 8`,
treating the register count as a byte count: a single-register payload
matches no branch, a two-register payload is decoded as 16 bit, a
four-register payload as 32 bit.  `decode_16bit_int` consumes the first
word only, `decode_32bit_*` the first two words, `decode_64bit_*` the
first four. -/
def SimPLCModBus.decoder (byte_order word_order : Endian) (bits : List Nat)
    (type : ScalarKind) : Except PyErr PyValue :=
  if type = .float then
    if bits.length * 8 = 16 then .error .unsupported
    else if bits.length * 8 = 32 then
      .ok (.float (natFromWordsBE (packWords byte_order word_order (bits.take 2))))
    else if bits.length * 8 = 64 then
      .ok (.float (natFromWordsBE (packWords byte_order word_order (bits.take 4))))
    else .error (.invalidWidth bits.length)
  else
    if bits.length * 8 = 16 then
      .ok (.int (toSigned 16 (packSingle byte_order (bits.headD 0))))
    else if bits.length * 8 = 32 then
      .ok (.int (toSigned 32 (natFromWordsBE (packWords byte_order word_order (bits.take 2)))))
    else if bits.length * 8 = 64 then
      .ok (.int (toSigned 64 (natFromWordsBE (packWords byte_order word_order (bits.take 4)))))
    else .error (.invalidWidth bits.length)

/-! ### Modbus memory map, `sdplc/modbus.py` -/

/-- Dataclass `ModBusCoil`. -/
structure ModBusCoil where
  slave : Nat
  address : Nat
  value : Bool
deriving DecidableEq, Repr

/-- Dataclass `ModBusDiscreteInput`. -/
structure ModBusDiscreteInput where
  slave : Nat
  address : Nat
  value : Bool
deriving DecidableEq, Repr

/-- Dataclass `ModBusHoldingRegister` (register metadata: declared size in
bits and scalar kind). -/
structure ModBusHoldingRegister where
  slave : Nat
  address : Nat
  value : PyValue
  size : Nat
  type : ScalarKind
deriving DecidableEq, Repr

/-- Dataclass `ModBusInputRegister`. -/
structure ModBusInputRegister where
  slave : Nat
  address : Nat
  value : PyValue
  size : Nat
  type : ScalarKind
deriving DecidableEq, Repr

/-- Registration-time state of one Modbus slave, class `ModBusSlave`.
The four 65534-entry memory arrays and their parallel occupancy bitmaps
are modelled as total functions (see the file header); coil and
discrete-input entries are booleans, register entries 16-bit words. -/
structure ModBusSlave where
  id : Nat
  coils : List ModBusCoil
  coils_memory : Nat → Bool
  coils_memory_occupancy : Nat → Bool
  discrete_inputs : List ModBusDiscreteInput
  discrete_inputs_memory : Nat → Bool
  discrete_inputs_memory_occupancy : Nat → Bool
  holding_registers : List ModBusHoldingRegister
  holding_registers_memory : Nat → Nat
  holding_registers_memory_occupancy : Nat → Bool
  input_registers : List ModBusInputRegister
  input_registers_memory : Nat → Nat
  input_registers_memory_occupancy : Nat → Bool

/-- Freshly constructed slave, `ModBusSlave.__init__`: empty registration
lists, zeroed memories, all-free occupancy bitmaps. -/
def ModBusSlave.new (id : Nat) : ModBusSlave where
  id := id
  coils := []
  coils_memory := fun _ => false
  coils_memory_occupancy := fun _ => false
  discrete_inputs := []
  discrete_inputs_memory := fun _ => false
  discrete_inputs_memory_occupancy := fun _ => false
  holding_registers := []
  holding_registers_memory := fun _ => 0
  holding_registers_memory_occupancy := fun _ => false
  input_registers := []
  input_registers_memory := fun _ => 0
  input_registers_memory_occupancy := fun _ => false

/-- Embedding of `ModBusSlave.add_coil`.  Occupancy of the single address
is checked first; on success the coil is appended, the memory cell set and
the occupancy bit raised.  The mutated state is returned together with the
raised error, if any (Python exception semantics). -/
def ModBusSlave.add_coil (s : ModBusSlave) (address : Nat) (value : Bool) :
    ModBusSlave × Option PyErr :=
  if s.coils_memory_occupancy address then
    (s, some .alreadyOccupied)
  else
    ({ s with
        coils := s.coils ++ [⟨s.id, address, value⟩]
        coils_memory := fun i => if i = address then value else s.coils_memory i
        coils_memory_occupancy := fun i =>
          if i = address then true else s.coils_memory_occupancy i },
      none)

/-- Embedding of `ModBusSlave.add_discrete_input`. -/
def ModBusSlave.add_discrete_input (s : ModBusSlave) (address : Nat) (value : Bool) :
    ModBusSlave × Option PyErr :=
  if s.discrete_inputs_memory_occupancy address then
    (s, some .alreadyOccupied)
  else
    ({ s with
        discrete_inputs := s.discrete_inputs ++ [⟨s.id, address, value⟩]
        discrete_inputs_memory := fun i =>
          if i = address then value else s.discrete_inputs_memory i
        discrete_inputs_memory_occupancy := fun i =>
          if i = address then true else s.discrete_inputs_memory_occupancy i },
      none)

/-- Embedding of `ModBusSlave.add_holding_register`.  The statement order
of the source is kept: the occupancy window `[address, address + size/16)`
is checked first (`any` over the slice), the metadata record is appended
to `holding_registers`, then `modbus.encoder(value, size)` runs (raising
aborts here, with the append already performed), and finally the encoded
words are installed and the occupancy bits raised.  `bo`/`wo` are the
byte and word order of the `SimPLCModBus` singleton the method reads. -/
def ModBusSlave.add_holding_register (s : ModBusSlave) (address : Nat)
    (value : PyValue) (size : Nat) (bo wo : Endian) : ModBusSlave × Option PyErr :=
  if (List.range (size / 16)).any
      (fun i => s.holding_registers_memory_occupancy (address + i)) then
    (s, some .alreadyOccupied)
  else
    let type : ScalarKind := if pyIsInt value then .int else .float
    let s1 := { s with
      holding_registers :=
        s.holding_registers ++ [⟨s.id, address, value, size, type⟩] }
    match encoder value size bo wo with
    | .error e => (s1, some e)
    | .ok bits =>
      ({ s1 with
          holding_registers_memory := fun i =>
            if address ≤ i ∧ i < address + size / 16 then bits.getD (i - address) 0
            else s.holding_registers_memory i
          holding_registers_memory_occupancy := fun i =>
            if address ≤ i ∧ i < address + size / 16 then true
            else s.holding_registers_memory_occupancy i },
        none)

/-- Embedding of `ModBusSlave.add_input_register` (same shape as
`add_holding_register` over the input-register table). -/
def ModBusSlave.add_input_register (s : ModBusSlave) (address : Nat)
    (value : PyValue) (size : Nat) (bo wo : Endian) : ModBusSlave × Option PyErr :=
  if (List.range (size / 16)).any
      (fun i => s.input_registers_memory_occupancy (address + i)) then
    (s, some .alreadyOccupied)
  else
    let type : ScalarKind := if pyIsInt value then .int else .float
    let s1 := { s with
      input_registers :=
        s.input_registers ++ [⟨s.id, address, value, size, type⟩] }
    match encoder value size bo wo with
    | .error e => (s1, some e)
    | .ok bits =>
      ({ s1 with
          input_registers_memory := fun i =>
            if address ≤ i ∧ i < address + size / 16 then bits.getD (i - address) 0
            else s.input_registers_memory i
          input_registers_memory_occupancy := fun i =>
            if address ≤ i ∧ i < address + size / 16 then true
            else s.input_registers_memory_occupancy i },
        none)

/-- Running `ModbusSlaveContext` datastore of one slave, the
`store["c"] / store["d"] / store["h"] / store["i"]` sequential data blocks
(zero-based addressing). -/
structure SlaveContext where
  co : Nat → Bool
  di : Nat → Bool
  hr : Nat → Nat
  ir : Nat → Nat

/-- Embedding of `ModBusSlave.initialize`: the slave context is seeded from
the registration-time memories. -/
def ModBusSlave.initialize (s : ModBusSlave) : SlaveContext where
  co := s.coils_memory
  di := s.discrete_inputs_memory
  hr := s.holding_registers_memory
  ir := s.input_registers_memory

/-- State of the `SimPLCModBus` server singleton: the slave registrations,
the running slave contexts (after `init`), and the configured byte and
word order. -/
structure SimPLCModBus where
  slaves : Nat → Option ModBusSlave
  slaves_context : Nat → Option SlaveContext
  byte_order : Endian
  word_order : Endian

/-- Embedding of `SimPLCModBus.__init__` (defaults: big byte and word
order, no slaves). -/
def SimPLCModBus.new : SimPLCModBus where
  slaves := fun _ => none
  slaves_context := fun _ => none
  byte_order := .big
  word_order := .big

/-- Embedding of `SimPLCModBus.create_slave`. -/
def SimPLCModBus.create_slave (m : SimPLCModBus) (id : Nat) : SimPLCModBus :=
  { m with slaves := fun k => if k = id then some (ModBusSlave.new id) else m.slaves k }

/-- Embedding of `SimPLCModBus.create_coil`
(`self.slaves[slave].add_coil(...)`; a missing slave id raises `KeyError`). -/
def SimPLCModBus.create_coil (m : SimPLCModBus) (slave address : Nat)
    (value : Bool) : SimPLCModBus × Option PyErr :=
  match m.slaves slave with
  | none => (m, some .keyError)
  | some s =>
    let r := s.add_coil address value
    ({ m with slaves := fun k => if k = slave then some r.1 else m.slaves k }, r.2)

/-- Embedding of `SimPLCModBus.create_discrete_input`. -/
def SimPLCModBus.create_discrete_input (m : SimPLCModBus) (slave address : Nat)
    (value : Bool) : SimPLCModBus × Option PyErr :=
  match m.slaves slave with
  | none => (m, some .keyError)
  | some s =>
    let r := s.add_discrete_input address value
    ({ m with slaves := fun k => if k = slave then some r.1 else m.slaves k }, r.2)

/-- Embedding of `SimPLCModBus.create_holding_register`. -/
def SimPLCModBus.create_holding_register (m : SimPLCModBus) (slave address : Nat)
    (value : PyValue) (size : Nat) : SimPLCModBus × Option PyErr :=
  match m.slaves slave with
  | none => (m, some .keyError)
  | some s =>
    let r := s.add_holding_register address value size m.byte_order m.word_order
    ({ m with slaves := fun k => if k = slave then some r.1 else m.slaves k }, r.2)

/-- Embedding of `SimPLCModBus.create_input_register`. -/
def SimPLCModBus.create_input_register (m : SimPLCModBus) (slave address : Nat)
    (value : PyValue) (size : Nat) : SimPLCModBus × Option PyErr :=
  match m.slaves slave with
  | none => (m, some .keyError)
  | some s =>
    let r := s.add_input_register address value size m.byte_order m.word_order
    ({ m with slaves := fun k => if k = slave then some r.1 else m.slaves k }, r.2)

/-- Embedding of `SimPLCModBus.init`: every registered slave is
initialised into a running context. -/
def SimPLCModBus.init (m : SimPLCModBus) : SimPLCModBus :=
  { m with slaves_context := fun k => (m.slaves k).map ModBusSlave.initialize }

/-- Embedding of `SimPLCModBus.read_coil` (`store["c"].getValues(address, 1)`). -/
def SimPLCModBus.read_coil (m : SimPLCModBus) (slave address : Nat) :
    Except PyErr Bool :=
  match m.slaves_context slave with
  | none => .error .keyError
  | some ctx => .ok (ctx.co address)

/-- Embedding of `SimPLCModBus.write_coil`; returns the read-back value. -/
def SimPLCModBus.write_coil (m : SimPLCModBus) (slave address : Nat)
    (value : Bool) : SimPLCModBus × Except PyErr Bool :=
  match m.slaves_context slave with
  | none => (m, .error .keyError)
  | some ctx =>
    let ctx1 := { ctx with co := fun j => if j = address then value else ctx.co j }
    ({ m with slaves_context := fun k =>
        if k = slave then some ctx1 else m.slaves_context k },
      .ok (ctx1.co address))

/-- Embedding of `SimPLCModBus.read_discrete_input`. -/
def SimPLCModBus.read_discrete_input (m : SimPLCModBus) (slave address : Nat) :
    Except PyErr Bool :=
  match m.slaves_context slave with
  | none => .error .keyError
  | some ctx => .ok (ctx.di address)

/-- Embedding of `SimPLCModBus.write_discrete_input`. -/
def SimPLCModBus.write_discrete_input (m : SimPLCModBus) (slave address : Nat)
    (value : Bool) : SimPLCModBus × Except PyErr Bool :=
  match m.slaves_context slave with
  | none => (m, .error .keyError)
  | some ctx =>
    let ctx1 := { ctx with di := fun j => if j = address then value else ctx.di j }
    ({ m with slaves_context := fun k =>
        if k = slave then some ctx1 else m.slaves_context k },
      .ok (ctx1.di address))

/-- Embedding of `SimPLCModBus.read_holding_register`.  Faithful to the
source: the metadata record is fetched by *positional* list index
(`self.slaves[slave].holding_registers[address]` — a Python list, not a
mapping keyed by address), `size // 16` words are fetched from the
context at `address`, and the words are decoded by the method decoder
`SimPLCModBus.decoder`. -/
def SimPLCModBus.read_holding_register (m : SimPLCModBus) (slave address : Nat) :
    Except PyErr PyValue :=
  match m.slaves_context slave with
  | none => .error .keyError
  | some ctx =>
    match m.slaves slave with
    | none => .error .keyError
    | some s =>
      match s.holding_registers[address]? with
      | none => .error .indexError
      | some reg =>
        let bits := (List.range (reg.size / 16)).map fun j => ctx.hr (address + j)
        SimPLCModBus.decoder m.byte_order m.word_order bits reg.type

/-- Embedding of `SimPLCModBus.write_holding_register`: encodes with the
declared size, installs the words one by one, then returns the decoded
read-back. -/
def SimPLCModBus.write_holding_register (m : SimPLCModBus) (slave address : Nat)
    (value : PyValue) : SimPLCModBus × Except PyErr PyValue :=
  match m.slaves_context slave with
  | none => (m, .error .keyError)
  | some ctx =>
    match m.slaves slave with
    | none => (m, .error .keyError)
    | some s =>
      match s.holding_registers[address]? with
      | none => (m, .error .indexError)
      | some reg =>
        match encoder value reg.size m.byte_order m.word_order with
        | .error e => (m, .error e)
        | .ok bits =>
          let ctx1 := { ctx with
            hr := fun j =>
              if address ≤ j ∧ j < address + reg.size / 16 then bits.getD (j - address) 0
              else ctx.hr j }
          let m1 := { m with slaves_context := fun k =>
            if k = slave then some ctx1 else m.slaves_context k }
          (m1, SimPLCModBus.decoder m.byte_order m.word_order
            ((List.range (reg.size / 16)).map fun j => ctx1.hr (address + j)) reg.type)

/-- Embedding of `SimPLCModBus.read_input_register` (same shape as
`read_holding_register` over the input-register table). -/
def SimPLCModBus.read_input_register (m : SimPLCModBus) (slave address : Nat) :
    Except PyErr PyValue :=
  match m.slaves_context slave with
  | none => .error .keyError
  | some ctx =>
    match m.slaves slave with
    | none => .error .keyError
    | some s =>
      match s.input_registers[address]? with
      | none => .error .indexError
      | some reg =>
        let bits := (List.range (reg.size / 16)).map fun j => ctx.ir (address + j)
        SimPLCModBus.decoder m.byte_order m.word_order bits reg.type

/-- Embedding of `SimPLCModBus.write_input_register`. -/
def SimPLCModBus.write_input_register (m : SimPLCModBus) (slave address : Nat)
    (value : PyValue) : SimPLCModBus × Except PyErr PyValue :=
  match m.slaves_context slave with
  | none => (m, .error .keyError)
  | some ctx =>
    match m.slaves slave with
    | none => (m, .error .keyError)
    | some s =>
      match s.input_registers[address]? with
      | none => (m, .error .indexError)
      | some reg =>
        match encoder value reg.size m.byte_order m.word_order with
        | .error e => (m, .error e)
        | .ok bits =>
          let ctx1 := { ctx with
            ir := fun j =>
              if address ≤ j ∧ j < address + reg.size / 16 then bits.getD (j - address) 0
              else ctx.ir j }
          let m1 := { m with slaves_context := fun k =>
            if k = slave then some ctx1 else m.slaves_context k }
          (m1, SimPLCModBus.decoder m.byte_order m.word_order
            ((List.range (reg.size / 16)).map fun j => ctx1.ir (address + j)) reg.type)

/-! ### Node registry and sync engine, `sdplc/sdplc.py` -/

/-- Protocol literal of the configuration (`"OPCUA" | "ModBus"`). -/
inductive Proto where
  | OPCUA
  | ModBus
deriving DecidableEq, Repr

/-- Modbus register kind literal of a node binding
(`"c" | "d" | "h" | "i"`). -/
inductive RegKind where
  | c
  | d
  | h
  | i
deriving DecidableEq, Repr

/-- Embedding of `ModBusRegConfig` from `sdplc/schemas.py`. -/
structure ModBusRegConfig where
  slave : Nat
  address : Nat
  type : RegKind
  register_size : Nat
deriving DecidableEq, Repr

/-- Embedding of `OPCUANodeConfig` from `sdplc/schemas.py`
(`namespace` is spelled `nspace` because `namespace` is a Lean keyword);
`node_id` is the upstream node id filled in by the OPC UA client branch
of `add_Node`. -/
structure OPCUANodeConfig where
  nspace : String
  node_qualified_name : String
  node_id : Option Nat := none
deriving DecidableEq, Repr

/-- Embedding of `Node` from `sdplc/schemas.py` (the purely descriptive
`parents` / `children` links are not modelled). -/
structure Node where
  qualified_name : String
  value : PyValue
  modbus : Option ModBusRegConfig := none
  opcua : Option OPCUANodeConfig := none
deriving DecidableEq, Repr

/-- Byte and word order of the Modbus client configuration
(`ModBusIPConfig.byte_order` / `word_order` of `sdplc/modbus/schemas.py`,
already mapped to `Endian` as `sdplc.py` does). -/
structure MbClientConfig where
  byte_order : Endian
  word_order : Endian
deriving DecidableEq, Repr

/-- Modelled from the spec: the `Config` consumed by `sdplc/sdplc.py`
(fields `server`, `client`, `modbus_client_config`) is not present under
`src/` — the `schemas.py` in the tree is the older north/south variant —
so its shape follows §6 of the spec: `server : "OPCUA" | "ModBus" | null`,
`client` likewise, and the Modbus client configuration carrying
`byte_order` / `word_order`. -/
structure SDPLCConfig where
  server : Option Proto
  client : Option Proto := none
  modbus_client_config : Option MbClientConfig := none

/-- Record of one write pushed to the upstream Modbus client
(`modbusClient.write_coil` / `write_holding_registers`). -/
inductive MbWrite where
  | coil (address : Nat) (value : Bool) (slave : Nat)
  | registers (address : Nat) (values : List Nat) (slave : Nat)
deriving DecidableEq, Repr

/-- Python `bool(value)` on a scalar: zero is falsy.  For a float the
all-zero bit pattern stands for `0.0` (the negative-zero pattern does not
occur in the modelled flows). -/
def pyBool : PyValue → Bool
  | .bool b => b
  | .int v => v != 0
  | .float p => p != 0

/-- Python `==` on two scalar values: `bool` compares numerically with
`int` (`True == 1`).  Comparisons between a float and a non-float variant
are width-dependent at the bit-pattern level and never arise in the
modelled flows; they are taken to be unequal. -/
def pyEq : PyValue → PyValue → Bool
  | .bool a, .bool b => a = b
  | .int a, .int b => a = b
  | .float a, .float b => a = b
  | .bool a, .int b => (if a then (1 : Int) else 0) = b
  | .int a, .bool b => a = (if b then (1 : Int) else 0)
  | _, _ => false

/-- Update of the first list element satisfying the predicate (Python
mutates the object returned by `next(...)`, which is the first match). -/
def updateFirst (p : α → Bool) (f : α → α) : List α → List α
  | [] => []
  | x :: xs => if p x then f x :: xs else x :: updateFirst p f xs

/-- State of the `SDPLC` singleton together with the servers and clients
it drives:

* `nodes` — `self.nodes`, the node registry;
* `opcuaNamespaces` / `opcuaNodes` — the registered namespace URIs and
  object-node qualified names of `opcuaServer`;
* `opcuaVariables` — the OPC UA server address space restricted to the
  registered variables: qualified name ↦ current value;
* `modbusServer` — the Modbus server state (`SimPLCModBus`);
* `mbClientWrites` / `opcClientWrites` — the log of writes pushed to the
  upstream Modbus / OPC UA clients. -/
structure SDPLC where
  nodes : List Node
  opcuaNamespaces : List String
  opcuaNodes : List String
  opcuaVariables : String → Option PyValue
  modbusServer : SimPLCModBus
  mbClientWrites : List MbWrite
  opcClientWrites : List (Nat × PyValue)

/-- Continuation of `SDPLC.add_Node` after the OPC UA branches: the
ModBus-server branch (lazy slave creation and register allocation) and the
final registry contents.  `self.nodes.append(node)` ran as the first
statement of `add_Node`, but by reference, so the registry entry is the
node value after every mutation (`node1`); on an allocation error the
append is *not* rolled back. -/
def SDPLC.add_Node_modbus (cfg : SDPLCConfig) (st : SDPLC) (node1 : Node) :
    SDPLC × Option PyErr :=
  if cfg.server = some .ModBus then
    match node1.modbus with
    | some mbc =>
      let m0 := st.modbusServer
      let m1 := if (m0.slaves mbc.slave).isSome then m0 else m0.create_slave mbc.slave
      let r : SimPLCModBus × Option PyErr :=
        match mbc.type with
        | .c => m1.create_coil mbc.slave mbc.address (pyBool node1.value)
        | .d =>
          match node1.value with
          | .bool b => m1.create_discrete_input mbc.slave mbc.address b
          | _ => (m1, none)
        | .h => m1.create_holding_register mbc.slave mbc.address node1.value
            mbc.register_size
        | .i => m1.create_input_register mbc.slave mbc.address node1.value
            mbc.register_size
      ({ st with nodes := st.nodes ++ [node1], modbusServer := r.1 }, r.2)
    | none => ({ st with nodes := st.nodes ++ [node1] }, none)
  else ({ st with nodes := st.nodes ++ [node1] }, none)

/-- Embedding of `SDPLC.add_Node`.  Statement order of the source:
`self.nodes.append(node)`; OPC UA server registration (lazy namespace and
object-node creation, then `register_variable` — looking the parent up in
`opcuaServer.nodes` raises `KeyError` when absent); OPC UA client branch
(fills `node.opcua.node_id` from the upstream browse, modelled by the
`browse` oracle); ModBus server branch (`SDPLC.add_Node_modbus`).  The
synchronisation event registered at the end is modelled separately as
`SDPLC.sync_node`. -/
def SDPLC.add_Node (cfg : SDPLCConfig) (browse : String → Option Nat)
    (st : SDPLC) (node : Node) : SDPLC × Option PyErr :=
  let node1 :=
    if cfg.client = some .OPCUA then
      match node.opcua with
      | some oc =>
        { node with opcua := some { oc with node_id := browse oc.node_qualified_name } }
      | none => node
    else node
  if cfg.server = some .OPCUA then
    match node.opcua with
    | some oc =>
      let ns := "http://ulfaric/SDPLC/" ++ oc.nspace
      let ns1 := if ns ∈ st.opcuaNamespaces then st.opcuaNamespaces
        else st.opcuaNamespaces ++ [ns]
      let nd1 := if ns ∈ st.opcuaNamespaces then st.opcuaNodes
        else st.opcuaNodes ++ [oc.node_qualified_name]
      if oc.node_qualified_name ∈ nd1 then
        let st1 := { st with
          opcuaNamespaces := ns1
          opcuaNodes := nd1
          opcuaVariables := fun q =>
            if q = node.qualified_name then some node.value else st.opcuaVariables q }
        SDPLC.add_Node_modbus cfg st1 node1
      else
        -- `KeyError` from `opcuaServer.nodes[...]`; the client branch below
        -- never runs, so the registry keeps the unmutated node.
        ({ st with
            nodes := st.nodes ++ [node]
            opcuaNamespaces := ns1
            opcuaNodes := nd1 }, some .keyError)
    | none => SDPLC.add_Node_modbus cfg st node1
  else SDPLC.add_Node_modbus cfg st node1

/-- Embedding of the per-node `sync_node` reconciler registered by
`SDPLC.add_Node` (priority 1, every tick).  The closed-over node is
passed and returned explicitly.  When the server is OPC UA, the server
variable is read and an external change adopted into the cached value,
then pushed to the upstream Modbus client when one is configured (the
source calls the async client methods without `await` — a bug the spec
acknowledges in §9(c); the model sequences them as intended and records
the writes).  When the server is ModBus, the server view is read through
`SimPLCModBus` and an external change adopted; the OPC UA client fan-out
branch of the source is literally `pass`.  No branch writes a value to
the other *local* protocol server. -/
def SDPLC.sync_node (cfg : SDPLCConfig) (st : SDPLC) (node : Node) :
    Except PyErr (SDPLC × Node) :=
  if cfg.server = some .OPCUA then
    match st.opcuaVariables node.qualified_name with
    | none => .error .keyError
    | some opcua_value =>
      if ¬ pyEq opcua_value node.value then
        let node1 := { node with value := opcua_value }
        if cfg.client = some .ModBus then
          match node1.modbus with
          | some mbc =>
            match mbc.type with
            | .c =>
              let w := MbWrite.coil mbc.address (pyBool node1.value) mbc.slave
              .ok ({ st with mbClientWrites := st.mbClientWrites ++ [w] }, node1)
            | .h =>
              match cfg.modbus_client_config with
              | some cc =>
                match encoder node1.value mbc.register_size cc.byte_order cc.word_order with
                | .error e => .error e
                | .ok values =>
                  let w := MbWrite.registers mbc.address values mbc.slave
                  .ok ({ st with mbClientWrites := st.mbClientWrites ++ [w] }, node1)
              | none => .error .runtimeError
            | _ => .ok (st, node1)
          | none => .ok (st, node1)
        else .ok (st, node1)
      else .ok (st, node)
  else if cfg.server = some .ModBus then
    match node.modbus with
    | none => .error .runtimeError
    | some mbc =>
      let read : Except PyErr PyValue :=
        match mbc.type with
        | .c => (st.modbusServer.read_coil mbc.slave mbc.address).map PyValue.bool
        | .d => (st.modbusServer.read_discrete_input mbc.slave mbc.address).map PyValue.bool
        | .h => st.modbusServer.read_holding_register mbc.slave mbc.address
        | .i => st.modbusServer.read_input_register mbc.slave mbc.address
      match read with
      | .error e => .error e
      | .ok modbus_value =>
        if ¬ pyEq modbus_value node.value then
          -- adoption of the external value; the `if self.config.client ==
          -- "OPCUA"` body here is `pass` in the source.
          .ok (st, { node with value := modbus_value })
        else .ok (st, node)
  else .ok (st, node)

/-- Iterated sync ticks: `sync_node` run `n` times, as the tick scheduler
fires the reconciler once per tick. -/
def SDPLC.sync_iter (cfg : SDPLCConfig) : Nat → SDPLC → Node →
    Except PyErr (SDPLC × Node)
  | 0, st, node => .ok (st, node)
  | n + 1, st, node =>
    match SDPLC.sync_node cfg st node with
    | .error e => .error e
    | .ok (st1, node1) => SDPLC.sync_iter cfg n st1 node1

/-- Response of an upstream Modbus client read
(`pymodbus` response object: error flag, coil bits, register words). -/
structure MbResponse where
  isError : Bool
  bits : List Bool
  registers : List Nat

/-- Oracle for the upstream device consulted by the client role:
`opcRead node_id` models `opcuaClient.read`, raising modelled as an
error; `mbRead kind address count slave` models the `modbusClient`
read methods. -/
structure Upstream where
  opcRead : Nat → Except PyErr PyValue
  mbRead : RegKind → Nat → Nat → Nat → MbResponse

/-- Embedding of `SDPLC.read_node`: the node is looked up by qualified
name, the upstream of the configured client role is read, and only a
successful, non-error response is assigned to the cached value (the
assignment statement runs after the `isError` check; a decoder raise in
the assignment right-hand side also leaves the cache unchanged).  With no
client role configured the cached value is returned as is.  The state is
returned alongside the result so that the effect on the cache is visible
even on error. -/
def SDPLC.read_node (cfg : SDPLCConfig) (up : Upstream) (st : SDPLC)
    (qualified_name : String) : SDPLC × Except PyErr PyValue :=
  match st.nodes.find? (fun n => n.qualified_name = qualified_name) with
  | none => (st, .error .runtimeError)
  | some node =>
    let put : PyValue → SDPLC := fun v =>
      let upd := updateFirst (fun n => n.qualified_name = qualified_name)
        (fun n => { n with value := v }) st.nodes
      { st with nodes := upd }
    match cfg.client with
    | some .OPCUA =>
      match node.opcua with
      | none => (st, .error .runtimeError)
      | some oc =>
        match oc.node_id with
        | none => (st, .error .runtimeError)
        | some nid =>
          match up.opcRead nid with
          | .error e => (st, .error e)
          | .ok v => (put v, .ok v)
    | some .ModBus =>
      match node.modbus with
      | none => (st, .error .runtimeError)
      | some mbc =>
        match mbc.type with
        | .c =>
          let r := up.mbRead .c mbc.address 1 mbc.slave
          if r.isError then (st, .error .runtimeError)
          else (put (.bool (r.bits.headD false)), .ok (.bool (r.bits.headD false)))
        | .d =>
          let r := up.mbRead .d mbc.address 1 mbc.slave
          if r.isError then (st, .error .runtimeError)
          else (put (.bool (r.bits.headD false)), .ok (.bool (r.bits.headD false)))
        | .h =>
          let r := up.mbRead .h mbc.address (mbc.register_size / 16) mbc.slave
          if r.isError then (st, .error .runtimeError)
          else
            let bo := match cfg.modbus_client_config with
              | some cc => cc.byte_order
              | none => .little
            let wo := match cfg.modbus_client_config with
              | some cc => cc.word_order
              | none => .little
            match decoder r.registers (if pyIsInt node.value then .int else .float) bo wo with
            | .error e => (st, .error e)
            | .ok v => (put v, .ok v)
        | .i =>
          let r := up.mbRead .i mbc.address (mbc.register_size / 16) mbc.slave
          if r.isError then (st, .error .runtimeError)
          else
            let bo := match cfg.modbus_client_config with
              | some cc => cc.byte_order
              | none => .little
            let wo := match cfg.modbus_client_config with
              | some cc => cc.word_order
              | none => .little
            match decoder r.registers (if pyIsInt node.value then .int else .float) bo wo with
            | .error e => (st, .error e)
            | .ok v => (put v, .ok v)
    | none => (st, .ok node.value)

/-- Error part of an `Except` result, for methods whose raise is threaded
as `Option PyErr`. -/
def errOpt : Except PyErr α → Option PyErr
  | .error e => some e
  | .ok _ => none

/-- Embedding of `SDPLC.write_node`.  The cached value is assigned the
provided value *as given* (`node.value = value`, no normalisation to the
declared variant), then the value is fanned out: to the OPC UA or ModBus
server of the server role, and to the client of the client role (client
calls again modelled as sequenced, their writes recorded).  Mutations
performed before a raise persist, Python-style. -/
def SDPLC.write_node (cfg : SDPLCConfig) (st : SDPLC) (qualified_name : String)
    (value : PyValue) : SDPLC × Option PyErr :=
  match st.nodes.find? (fun n => n.qualified_name = qualified_name) with
  | none => (st, some .valueError)
  | some node =>
    let node1 := { node with value := value }
    let upd := updateFirst (fun n => n.qualified_name = qualified_name)
      (fun _ => node1) st.nodes
    let st1 := { st with nodes := upd }
    let serverStep : SDPLC × Option PyErr :=
      match cfg.server with
      | some .OPCUA =>
        match node1.opcua with
        | some _ =>
          match st1.opcuaVariables node1.qualified_name with
          | some _ =>
            let vars := fun q =>
              if q = node1.qualified_name then some node1.value else st1.opcuaVariables q
            ({ st1 with opcuaVariables := vars }, none)
          | none => (st1, some .keyError)
        | none => (st1, some .runtimeError)
      | some .ModBus =>
        match node1.modbus with
        | some mbc =>
          match mbc.type with
          | .c =>
            let r := st1.modbusServer.write_coil mbc.slave mbc.address (pyBool node1.value)
            ({ st1 with modbusServer := r.1 }, errOpt r.2)
          | .d =>
            let r := st1.modbusServer.write_discrete_input mbc.slave mbc.address
              (pyBool node1.value)
            ({ st1 with modbusServer := r.1 }, errOpt r.2)
          | .h =>
            let r := st1.modbusServer.write_holding_register mbc.slave mbc.address
              node1.value
            ({ st1 with modbusServer := r.1 }, errOpt r.2)
          | .i =>
            let r := st1.modbusServer.write_input_register mbc.slave mbc.address
              node1.value
            ({ st1 with modbusServer := r.1 }, errOpt r.2)
        | none => (st1, some .runtimeError)
      | none => (st1, none)
    match serverStep with
    | (st2, some e) => (st2, some e)
    | (st2, none) =>
      match cfg.client with
      | some .OPCUA =>
        match node1.opcua with
        | some oc =>
          match oc.node_id with
          | some nid =>
            ({ st2 with opcClientWrites := st2.opcClientWrites ++ [(nid, node1.value)] }, none)
          | none => (st2, some .runtimeError)
        | none => (st2, some .runtimeError)
      | some .ModBus =>
        match node1.modbus with
        | some mbc =>
          match mbc.type with
          | .c =>
            let w := MbWrite.coil mbc.address (pyBool node1.value) mbc.slave
            ({ st2 with mbClientWrites := st2.mbClientWrites ++ [w] }, none)
          | .h =>
            match cfg.modbus_client_config with
            | some cc =>
              match encoder node1.value mbc.register_size cc.byte_order cc.word_order with
              | .error e => (st2, some e)
              | .ok values =>
                let w := MbWrite.registers mbc.address values mbc.slave
                ({ st2 with mbClientWrites := st2.mbClientWrites ++ [w] }, none)
            | none => (st2, some .runtimeError)
          | _ => (st2, none)
        | none => (st2, some .runtimeError)
      | none => (st2, none)

/-! ### Configuration validation, `sdplc/schemas.py` -/

/-- Kind of a Modbus protocol configuration
(`ModBusIPConfig` / `ModBusSerialConfig`). -/
inductive MbConfKind where
  | ip
  | serial
deriving DecidableEq, Repr

/-- Validation errors raised by `Config.check_interfaces`, one constructor
per `raise ValueError(...)` site, in source order. -/
inductive ConfigErr where
  | noInterface
  | opcuaBothInterfaces
  | modbusBothInterfaces
  | opcuaConfigMissingNorth
  | opcuaConfigMissingSouth
  | modbusConfigMissingNorth
  | modbusConfigMissingSouth
  | nodesWithoutNorth
  | modbusServerConfigUnsupported
deriving DecidableEq, Repr

/-- Embedding of `Config` from `sdplc/schemas.py`: the served (`north`)
and consumed (`south`) interface lists — the spec calls these the server
and client roles — plus the protocol configurations and node list needed
by the validator. -/
structure Config where
  north : Option (List Proto)
  south : Option (List Proto) := none
  modbus : Option MbConfKind := none
  opcua : Option Unit := none
  nodes : Option (List Node) := none

/-- Embedding of the pydantic model validator `Config.check_interfaces`,
which runs at `Config` construction (so before any server is started).
Python truthiness of an optional list (`None` and `[]` are falsy) is
`!(o.getD []).isEmpty`; the raises are checked in source order. -/
def Config.check_interfaces (c : Config) : Except ConfigErr Config :=
  let north := c.north.getD []
  let south := c.south.getD []
  let nodes := c.nodes.getD []
  if north.isEmpty ∧ south.isEmpty then .error .noInterface
  else if ¬north.isEmpty ∧ ¬south.isEmpty ∧ .OPCUA ∈ north ∧ .OPCUA ∈ south then
    .error .opcuaBothInterfaces
  else if ¬north.isEmpty ∧ ¬south.isEmpty ∧ .ModBus ∈ north ∧ .ModBus ∈ south then
    .error .modbusBothInterfaces
  else if ¬north.isEmpty ∧ .OPCUA ∈ north ∧ c.opcua.isNone then
    .error .opcuaConfigMissingNorth
  else if ¬south.isEmpty ∧ .OPCUA ∈ south ∧ c.opcua.isNone then
    .error .opcuaConfigMissingSouth
  else if ¬north.isEmpty ∧ .ModBus ∈ north ∧ c.modbus.isNone then
    .error .modbusConfigMissingNorth
  else if ¬south.isEmpty ∧ .ModBus ∈ south ∧ c.modbus.isNone then
    .error .modbusConfigMissingSouth
  else if ¬nodes.isEmpty ∧ north.isEmpty then .error .nodesWithoutNorth
  else if ¬north.isEmpty ∧ .ModBus ∈ north ∧ c.modbus ≠ some .ip then
    .error .modbusServerConfigUnsupported
  else .ok c

/-- Hypothesis of the sync-idempotence property: the authoritative
protocol read of `sync_node` succeeds and agrees (Python `==`) with the
node's cached value — no external client has written.  The read expression
mirrors the corresponding branch of `SDPLC.sync_node`. -/
def authReadOk (cfg : SDPLCConfig) (st : SDPLC) (node : Node) : Bool :=
  match cfg.server with
  | some .OPCUA =>
    match st.opcuaVariables node.qualified_name with
    | some v => pyEq v node.value
    | none => false
  | some .ModBus =>
    match node.modbus with
    | none => false
    | some mbc =>
      let read : Except PyErr PyValue :=
        match mbc.type with
        | .c => (st.modbusServer.read_coil mbc.slave mbc.address).map PyValue.bool
        | .d => (st.modbusServer.read_discrete_input mbc.slave mbc.address).map PyValue.bool
        | .h => st.modbusServer.read_holding_register mbc.slave mbc.address
        | .i => st.modbusServer.read_input_register mbc.slave mbc.address
      match read with
      | .ok v => pyEq v node.value
      | .error _ => false
  | none => true

/-! ### Codec lemmas -/

theorem wordsBE_length (n x : Nat) : (wordsBE n x).length = n := by
  induction n generalizing x with
  | zero => rfl
  | succ n ih => simp [wordsBE, ih]

theorem wordsBE_lt (n x : Nat) : ∀ w ∈ wordsBE n x, w < 2 ^ 16 := by
  induction n generalizing x with
  | zero => simp [wordsBE]
  | succ n ih =>
    intro w hw
    simp only [wordsBE, List.mem_append, List.mem_singleton] at hw
    rcases hw with hw | hw
    · exact ih _ w hw
    · subst hw; exact Nat.mod_lt _ (by norm_num)

theorem natFromWordsBE_append (l : List Nat) (w : Nat) :
    natFromWordsBE (l ++ [w]) = natFromWordsBE l * 2 ^ 16 + w := by
  simp [natFromWordsBE, List.foldl_append]

theorem natFromWordsBE_wordsBE (n x : Nat) :
    natFromWordsBE (wordsBE n x) = x % 2 ^ (16 * n) := by
  induction n generalizing x with
  | zero => simp [wordsBE, natFromWordsBE, Nat.mod_one]
  | succ n ih =>
    rw [wordsBE, natFromWordsBE_append, ih,
      show 16 * (n + 1) = 16 + 16 * n by ring, pow_add, Nat.mod_mul]
    ring

theorem bswap16_bswap16 (w : Nat) (h : w < 2 ^ 16) : bswap16 (bswap16 w) = w := by
  simp only [bswap16]
  omega

theorem packWords_packWords (bo wo : Endian) (ws : List Nat)
    (h : ∀ w ∈ ws, w < 2 ^ 16) : packWords bo wo (packWords bo wo ws) = ws := by
  rcases bo <;> rcases wo <;>
    simp only [packWords, reduceCtorEq, if_true, if_false, if_neg, if_pos,
      List.map_reverse, List.reverse_reverse, List.map_map] <;>
    try rfl
  all_goals
    rw [show ws.map (bswap16 ∘ bswap16) = ws.map id from
      List.map_congr_left fun w hw => bswap16_bswap16 w (h w hw), List.map_id]

theorem packSingle_packSingle (bo : Endian) (w : Nat) (h : w < 2 ^ 16) :
    packSingle bo (packSingle bo w) = w := by
  rcases bo <;> simp [packSingle, bswap16_bswap16 w h]
theorem toUnsigned_lt (w : Nat) (v : Int) : toUnsigned w v < 2 ^ w := by
  have h : 0 < ((2 ^ w : Nat) : Int) := by positivity
  have := Int.emod_lt_of_pos v h
  simp only [toUnsigned]
  omega

theorem toSigned_toUnsigned_16 (v : Int) (h1 : -(2 ^ 15) ≤ v) (h2 : v < 2 ^ 15) :
    toSigned 16 (toUnsigned 16 v) = v := by
  simp only [toSigned, toUnsigned]
  norm_num at *
  split <;> omega

theorem toSigned_toUnsigned_32 (v : Int) (h1 : -(2 ^ 31) ≤ v) (h2 : v < 2 ^ 31) :
    toSigned 32 (toUnsigned 32 v) = v := by
  simp only [toSigned, toUnsigned]
  norm_num at *
  split <;> omega

theorem toSigned_toUnsigned_64 (v : Int) (h1 : -(2 ^ 63) ≤ v) (h2 : v < 2 ^ 63) :
    toSigned 64 (toUnsigned 64 v) = v := by
  simp only [toSigned, toUnsigned]
  norm_num at *
  split <;> omega

theorem packWords_length (bo wo : Endian) (ws : List Nat) :
    (packWords bo wo ws).length = ws.length := by
  rcases bo <;> rcases wo <;> simp [packWords]

theorem packWords_lt (bo wo : Endian) (ws : List Nat) (h : ∀ w ∈ ws, w < 2 ^ 16) :
    ∀ w ∈ packWords bo wo ws, w < 2 ^ 16 := by
  intro w hw
  have hb : ∀ u ∈ ws.map bswap16, u < 2 ^ 16 := by
    intro u hu
    simp only [List.mem_map] at hu
    obtain ⟨x, hx, rfl⟩ := hu
    have := h x hx
    simp only [bswap16]
    omega
  rcases bo <;> rcases wo <;> simp [packWords] at hw
  · exact h w hw
  · exact h w hw
  · exact hb w (List.mem_map.mpr hw)
  · exact hb w (List.mem_map.mpr hw)

theorem decoder_int_len1 (bits : List Nat) (h : bits.length = 1)
    (bo wo : Endian) :
    decoder bits .int bo wo = .ok (.int (toSigned 16 (packSingle bo (bits.headD 0)))) := by
  simp [decoder, h]

theorem decoder_int_len2 (bits : List Nat) (h : bits.length = 2)
    (bo wo : Endian) :
    decoder bits .int bo wo =
      .ok (.int (toSigned 32 (natFromWordsBE (packWords bo wo bits)))) := by
  simp [decoder, h]

theorem decoder_int_len4 (bits : List Nat) (h : bits.length = 4)
    (bo wo : Endian) :
    decoder bits .int bo wo =
      .ok (.int (toSigned 64 (natFromWordsBE (packWords bo wo bits)))) := by
  simp [decoder, h]

theorem decoder_float_len2 (bits : List Nat) (h : bits.length = 2)
    (bo wo : Endian) :
    decoder bits .float bo wo =
      .ok (.float (natFromWordsBE (packWords bo wo bits))) := by
  simp [decoder, h]

theorem decoder_float_len4 (bits : List Nat) (h : bits.length = 4)
    (bo wo : Endian) :
    decoder bits .float bo wo =
      .ok (.float (natFromWordsBE (packWords bo wo bits))) := by
  simp [decoder, h]

theorem roundtrip_int_16 (bo wo : Endian) (v : Int)
    (h1 : -(2 ^ 15) ≤ v) (h2 : v < 2 ^ 15) :
    (encoder (.int v) 16 bo wo).bind (fun bits => decoder bits .int bo wo)
      = .ok (.int v) := by
  rw [show encoder (.int v) 16 bo wo = .ok [packSingle bo (toUnsigned 16 v)] from rfl]
  rw [show (Except.ok (ε := PyErr) [packSingle bo (toUnsigned 16 v)]).bind
        (fun bits => decoder bits .int bo wo)
      = decoder [packSingle bo (toUnsigned 16 v)] .int bo wo from rfl]
  rw [decoder_int_len1 [packSingle bo (toUnsigned 16 v)] rfl]
  simp only [List.headD]
  rw [packSingle_packSingle bo _ (toUnsigned_lt 16 v), toSigned_toUnsigned_16 v h1 h2]

theorem roundtrip_int_32 (bo wo : Endian) (v : Int)
    (h1 : -(2 ^ 31) ≤ v) (h2 : v < 2 ^ 31) :
    (encoder (.int v) 32 bo wo).bind (fun bits => decoder bits .int bo wo)
      = .ok (.int v) := by
  rw [show encoder (.int v) 32 bo wo
      = .ok (packWords bo wo (wordsBE 2 (toUnsigned 32 v))) from rfl]
  rw [show (Except.ok (ε := PyErr) (packWords bo wo (wordsBE 2 (toUnsigned 32 v)))).bind
        (fun bits => decoder bits .int bo wo)
      = decoder (packWords bo wo (wordsBE 2 (toUnsigned 32 v))) .int bo wo from rfl]
  rw [decoder_int_len2 _ (by rw [packWords_length, wordsBE_length])]
  rw [packWords_packWords bo wo _ (wordsBE_lt 2 _), natFromWordsBE_wordsBE,
    Nat.mod_eq_of_lt (by simpa using toUnsigned_lt 32 v),
    toSigned_toUnsigned_32 v h1 h2]

theorem roundtrip_int_64 (bo wo : Endian) (v : Int)
    (h1 : -(2 ^ 63) ≤ v) (h2 : v < 2 ^ 63) :
    (encoder (.int v) 64 bo wo).bind (fun bits => decoder bits .int bo wo)
      = .ok (.int v) := by
  rw [show encoder (.int v) 64 bo wo
      = .ok (packWords bo wo (wordsBE 4 (toUnsigned 64 v))) from rfl]
  rw [show (Except.ok (ε := PyErr) (packWords bo wo (wordsBE 4 (toUnsigned 64 v)))).bind
        (fun bits => decoder bits .int bo wo)
      = decoder (packWords bo wo (wordsBE 4 (toUnsigned 64 v))) .int bo wo from rfl]
  rw [decoder_int_len4 _ (by rw [packWords_length, wordsBE_length])]
  rw [packWords_packWords bo wo _ (wordsBE_lt 4 _), natFromWordsBE_wordsBE,
    Nat.mod_eq_of_lt (by simpa using toUnsigned_lt 64 v),
    toSigned_toUnsigned_64 v h1 h2]

theorem roundtrip_float_32 (bo wo : Endian) (p : Nat) (hp : p < 2 ^ 32) :
    (encoder (.float p) 32 bo wo).bind (fun bits => decoder bits .float bo wo)
      = .ok (.float p) := by
  rw [show encoder (.float p) 32 bo wo
      = .ok (packWords bo wo (wordsBE 2 p)) from rfl]
  rw [show (Except.ok (ε := PyErr) (packWords bo wo (wordsBE 2 p))).bind
        (fun bits => decoder bits .float bo wo)
      = decoder (packWords bo wo (wordsBE 2 p)) .float bo wo from rfl]
  rw [decoder_float_len2 _ (by rw [packWords_length, wordsBE_length])]
  rw [packWords_packWords bo wo _ (wordsBE_lt 2 _), natFromWordsBE_wordsBE,
    Nat.mod_eq_of_lt (by simpa using hp)]

theorem roundtrip_float_64 (bo wo : Endian) (p : Nat) (hp : p < 2 ^ 64) :
    (encoder (.float p) 64 bo wo).bind (fun bits => decoder bits .float bo wo)
      = .ok (.float p) := by
  rw [show encoder (.float p) 64 bo wo
      = .ok (packWords bo wo (wordsBE 4 p)) from rfl]
  rw [show (Except.ok (ε := PyErr) (packWords bo wo (wordsBE 4 p))).bind
        (fun bits => decoder bits .float bo wo)
      = decoder (packWords bo wo (wordsBE 4 p)) .float bo wo from rfl]
  rw [decoder_float_len4 _ (by rw [packWords_length, wordsBE_length])]
  rw [packWords_packWords bo wo _ (wordsBE_lt 4 _), natFromWordsBE_wordsBE,
    Nat.mod_eq_of_lt (by simpa using hp)]

/-- C2.  For every byte order and word order, for every integer `v` in the
signed range of width `w ∈ {16, 32, 64}`, decoding the word sequence
produced by encoding `v` at width `w` (with the same byte and word order)
yields `v` again; the same round trip holds for IEEE-754 float bit
patterns at widths `w ∈ {32, 64}`. -/
theorem encoder_decoder_roundtrip (bo wo : Endian) :
    (∀ w v, (w = 16 ∨ w = 32 ∨ w = 64) →
      -(2 ^ (w - 1)) ≤ v → v < 2 ^ (w - 1) →
      (encoder (.int v) w bo wo).bind (fun bits => decoder bits .int bo wo)
        = .ok (.int v)) ∧
    (∀ w p, (w = 32 ∨ w = 64) → p < 2 ^ w →
      (encoder (.float p) w bo wo).bind (fun bits => decoder bits .float bo wo)
        = .ok (.float p)) := by
  constructor
  · rintro w v (rfl | rfl | rfl) h1 h2
    · exact roundtrip_int_16 bo wo v h1 h2
    · exact roundtrip_int_32 bo wo v h1 h2
    · exact roundtrip_int_64 bo wo v h1 h2
  · rintro w p (rfl | rfl) hp
    · exact roundtrip_float_32 bo wo p hp
    · exact roundtrip_float_64 bo wo p hp

/-- Witness for C2 at concrete inputs: the 32-bit integer `-70000` with
little byte order, and the 64-bit float pattern `3` with little word
order. -/
theorem encoder_decoder_roundtrip_witness :
    (((32 : Nat) = 16 ∨ (32 : Nat) = 32 ∨ (32 : Nat) = 64) ∧
      -(2 ^ (32 - 1)) ≤ (-70000 : Int) ∧ (-70000 : Int) < 2 ^ (32 - 1) ∧
      (encoder (.int (-70000)) 32 .little .big).bind
          (fun bits => decoder bits .int .little .big)
        = .ok (.int (-70000))) ∧
    (((64 : Nat) = 32 ∨ (64 : Nat) = 64) ∧ (3 : Nat) < 2 ^ 64 ∧
      (encoder (.float 3) 64 .big .little).bind
          (fun bits => decoder bits .float .big .little)
        = .ok (.float 3)) :=
  ⟨⟨by norm_num, by norm_num, by norm_num,
    (encoder_decoder_roundtrip .little .big).1 32 (-70000) (by norm_num)
      (by norm_num) (by norm_num)⟩,
   ⟨by norm_num, by norm_num,
    (encoder_decoder_roundtrip .big .little).2 64 3 (by norm_num) (by norm_num)⟩⟩

/-! ### Memory-map lemmas (C4, C5) -/

theorem add_holding_register_of_occupied (s : ModBusSlave) (addr : Nat)
    (v : PyValue) (w : Nat) (bo wo : Endian)
    (hc : ((List.range (w / 16)).any
      fun i => s.holding_registers_memory_occupancy (addr + i)) = true) :
    s.add_holding_register addr v w bo wo = (s, some .alreadyOccupied) := by
  unfold ModBusSlave.add_holding_register
  rw [if_pos hc]

theorem add_holding_register_of_encoder_error (s : ModBusSlave) (addr : Nat)
    (v : PyValue) (w : Nat) (bo wo : Endian) (e : PyErr)
    (hc : ((List.range (w / 16)).any
      fun i => s.holding_registers_memory_occupancy (addr + i)) = false)
    (he : encoder v w bo wo = .error e) :
    s.add_holding_register addr v w bo wo =
      ({ s with
          holding_registers := s.holding_registers ++
            [⟨s.id, addr, v, w, if pyIsInt v then .int else .float⟩] }, some e) := by
  unfold ModBusSlave.add_holding_register
  rw [if_neg (by simp [hc]), he]

theorem add_holding_register_of_free (s : ModBusSlave) (addr : Nat)
    (v : PyValue) (w : Nat) (bo wo : Endian) (bits : List Nat)
    (hc : ((List.range (w / 16)).any
      fun i => s.holding_registers_memory_occupancy (addr + i)) = false)
    (he : encoder v w bo wo = .ok bits) :
    s.add_holding_register addr v w bo wo =
      ({ s with
          holding_registers := s.holding_registers ++
            [⟨s.id, addr, v, w, if pyIsInt v then .int else .float⟩]
          holding_registers_memory := fun i =>
            if addr ≤ i ∧ i < addr + w / 16 then bits.getD (i - addr) 0
            else s.holding_registers_memory i
          holding_registers_memory_occupancy := fun i =>
            if addr ≤ i ∧ i < addr + w / 16 then true
            else s.holding_registers_memory_occupancy i }, none) := by
  unfold ModBusSlave.add_holding_register
  rw [if_neg (by simp [hc]), he]

/-- C4.  After a successful `add_holding_register(addr, width)` on a slave,
the occupancy bitmap has every bit of the window `[addr, addr + width/16)`
set and no bit outside the window changed (so exactly `width/16` bits are
set in the window), and every subsequent `add_holding_register` whose
window overlaps that window fails with `AlreadyOccupied`, leaving the
slave — memory, occupancy bitmap and registration list — unchanged. -/
theorem add_holding_register_occupancy (s : ModBusSlave) (addr w : Nat)
    (v : PyValue) (bo wo : Endian)
    (hw : w = 16 ∨ w = 32 ∨ w = 64) (hrange : addr + w / 16 ≤ 65534)
    (hok : (s.add_holding_register addr v w bo wo).2 = none) :
    (∀ i, addr ≤ i → i < addr + w / 16 →
      (s.add_holding_register addr v w bo wo).1.holding_registers_memory_occupancy i
        = true)
  ∧ (∀ i, i < addr ∨ addr + w / 16 ≤ i →
      (s.add_holding_register addr v w bo wo).1.holding_registers_memory_occupancy i
        = s.holding_registers_memory_occupancy i)
  ∧ (∀ addr2 w2 v2, addr2 + w2 / 16 ≤ 65534 →
      (∃ j, addr2 ≤ j ∧ j < addr2 + w2 / 16 ∧ addr ≤ j ∧ j < addr + w / 16) →
      (s.add_holding_register addr v w bo wo).1.add_holding_register addr2 v2 w2 bo wo
        = ((s.add_holding_register addr v w bo wo).1, some .alreadyOccupied)) := by
  have hc : ((List.range (w / 16)).any
      fun i => s.holding_registers_memory_occupancy (addr + i)) = false := by
    by_contra h
    rw [add_holding_register_of_occupied s addr v w bo wo
      (by simpa using h)] at hok
    simp at hok
  obtain ⟨bits, he⟩ : ∃ bits, encoder v w bo wo = .ok bits := by
    cases he : encoder v w bo wo with
    | ok bits => exact ⟨bits, rfl⟩
    | error e =>
      rw [add_holding_register_of_encoder_error s addr v w bo wo e hc he] at hok
      simp at hok
  rw [add_holding_register_of_free s addr v w bo wo bits hc he]
  refine ⟨?_, ?_, ?_⟩
  · intro i h1 h2
    show (if addr ≤ i ∧ i < addr + w / 16 then true
      else s.holding_registers_memory_occupancy i) = true
    rw [if_pos ⟨h1, h2⟩]
  · intro i h
    show (if addr ≤ i ∧ i < addr + w / 16 then true
      else s.holding_registers_memory_occupancy i)
      = s.holding_registers_memory_occupancy i
    rw [if_neg (by omega)]
  · rintro addr2 w2 v2 hr2 ⟨j, hj1, hj2, hj3, hj4⟩
    apply add_holding_register_of_occupied
    refine List.any_eq_true.mpr ⟨j - addr2, List.mem_range.mpr (by omega), ?_⟩
    have hji : addr2 + (j - addr2) = j := by omega
    rw [hji]
    show (if addr ≤ j ∧ j < addr + w / 16 then true
      else s.holding_registers_memory_occupancy j) = true
    rw [if_pos ⟨hj3, hj4⟩]

/-- Witness for C4: a fresh slave, first allocation of a 32-bit register at
address 3, then an overlapping allocation at address 4. -/
theorem add_holding_register_occupancy_witness :
    (((32 : Nat) = 16 ∨ (32 : Nat) = 32 ∨ (32 : Nat) = 64) ∧
      (3 : Nat) + 32 / 16 ≤ 65534 ∧
      ((ModBusSlave.new 7).add_holding_register 3 (.int 5) 32 .big .big).2 = none) ∧
    ((ModBusSlave.new 7).add_holding_register 3 (.int 5) 32 .big .big).1.add_holding_register
        4 (.int 1) 16 .big .big
      = (((ModBusSlave.new 7).add_holding_register 3 (.int 5) 32 .big .big).1,
          some .alreadyOccupied) :=
  ⟨⟨by norm_num, by norm_num, rfl⟩,
    (add_holding_register_occupancy (ModBusSlave.new 7) 3 32 (.int 5) .big .big
      (by norm_num) (by norm_num) rfl).2.2 4 16 (.int 1) (by norm_num)
      ⟨4, by norm_num, by norm_num, by norm_num, by norm_num⟩⟩

theorem add_Node_server_modbus (cfg : SDPLCConfig) (browse : String → Option Nat)
    (st : SDPLC) (node : Node)
    (hserver : cfg.server = some .ModBus) (hclient : cfg.client ≠ some .OPCUA) :
    SDPLC.add_Node cfg browse st node = SDPLC.add_Node_modbus cfg st node := by
  simp only [SDPLC.add_Node, hserver, if_neg hclient]
  simp

/-- C5.  Encoding a float value with width 16 always fails with the
`Unsupported` error; in particular `add_Node` on a node whose Modbus
binding is a holding register of `register_size` 16 with a float value
fails with `Unsupported` rather than allocating the register: the
occupancy bitmap and the register memory of the slave are unchanged. -/
theorem float16_unsupported (bo wo : Endian) (p : Nat) (cfg : SDPLCConfig)
    (browse : String → Option Nat) (st : SDPLC) (node : Node)
    (mbc : ModBusRegConfig) (sl : ModBusSlave)
    (hserver : cfg.server = some .ModBus) (hclient : cfg.client ≠ some .OPCUA)
    (hmb : node.modbus = some mbc) (htype : mbc.type = .h)
    (hsize : mbc.register_size = 16) (hval : node.value = .float p)
    (hsl : st.modbusServer.slaves mbc.slave = some sl)
    (hfree : sl.holding_registers_memory_occupancy mbc.address = false) :
    encoder (.float p) 16 bo wo = .error .unsupported
  ∧ (SDPLC.add_Node cfg browse st node).2 = some .unsupported
  ∧ ∃ sl1, (SDPLC.add_Node cfg browse st node).1.modbusServer.slaves mbc.slave
        = some sl1
      ∧ sl1.holding_registers_memory_occupancy = sl.holding_registers_memory_occupancy
      ∧ sl1.holding_registers_memory = sl.holding_registers_memory := by
  refine ⟨rfl, ?_⟩
  rw [add_Node_server_modbus cfg browse st node hserver hclient]
  have hc : ((List.range (16 / 16)).any
      fun i => sl.holding_registers_memory_occupancy (mbc.address + i)) = false := by
    simp [show List.range (16 / 16) = [0] from rfl, hfree]
  have hadd : sl.add_holding_register mbc.address node.value mbc.register_size
        st.modbusServer.byte_order st.modbusServer.word_order
      = ({ sl with
          holding_registers := sl.holding_registers ++
            [⟨sl.id, mbc.address, .float p, 16, .float⟩] }, some .unsupported) := by
    rw [hval, hsize]
    rw [add_holding_register_of_encoder_error sl mbc.address (.float p) 16 _ _
      .unsupported hc rfl]
    simp [pyIsInt]
  simp only [SDPLC.add_Node_modbus, hserver, if_pos, hmb, htype, hsl, Option.isSome_some,
    if_true, SimPLCModBus.create_holding_register, hadd]
  exact ⟨trivial, ⟨_, rfl, rfl, rfl⟩⟩

/-- Witness for C5: a state whose Modbus server has the single fresh slave
0, adding a node with a float value bound to a 16-bit holding register at
address 2. -/
theorem float16_unsupported_witness :
    (SDPLC.add_Node ⟨some .ModBus, none, none⟩ (fun _ => none)
        ⟨[], [], [], fun _ => none, SimPLCModBus.new.create_slave 0, [], []⟩
        ⟨"F", .float 3, some ⟨0, 2, .h, 16⟩, none⟩).2 = some .unsupported :=
  (float16_unsupported .big .big 3 ⟨some .ModBus, none, none⟩ (fun _ => none)
    ⟨[], [], [], fun _ => none, SimPLCModBus.new.create_slave 0, [], []⟩
    ⟨"F", .float 3, some ⟨0, 2, .h, 16⟩, none⟩ ⟨0, 2, .h, 16⟩ (ModBusSlave.new 0)
    rfl (by simp) rfl rfl rfl rfl rfl rfl).2.1

/-! ### Configuration validation (C8) -/

/-- C8.  A configuration that enables the same protocol — here OPC UA — on
both the served (`north`, the server role) and the consumed (`south`, the
client role) interface lists is rejected by `Config.check_interfaces`; the
validator runs at `Config` construction, before any server is started. -/
theorem check_interfaces_rejects_dup_opcua (c : Config) (n s : List Proto)
    (hn : c.north = some n) (hs : c.south = some s)
    (hmn : Proto.OPCUA ∈ n) (hms : Proto.OPCUA ∈ s) :
    c.check_interfaces = .error .opcuaBothInterfaces := by
  have hne : n.isEmpty = false := by
    cases n with
    | nil => cases hmn
    | cons a l => rfl
  have hse : s.isEmpty = false := by
    cases s with
    | nil => cases hms
    | cons a l => rfl
  unfold Config.check_interfaces
  rw [hn, hs]
  simp only [Option.getD_some]
  rw [if_neg (by simp [hne]), if_pos ⟨by simp [hne], by simp [hse], hmn, hms⟩]

/-- Witness for C8: `north = ["OPCUA"]`, `south = ["OPCUA"]`. -/
theorem check_interfaces_rejects_dup_opcua_witness :
    Proto.OPCUA ∈ [Proto.OPCUA] ∧
    Config.check_interfaces ⟨some [.OPCUA], some [.OPCUA], none, none, none⟩
      = .error .opcuaBothInterfaces :=
  ⟨by decide,
    check_interfaces_rejects_dup_opcua ⟨some [.OPCUA], some [.OPCUA], none, none, none⟩
      [.OPCUA] [.OPCUA] rfl rfl (by decide) (by decide)⟩

/-! ### Read path of the old Modbus server (C3) -/

/-- C3 (failing evaluation).  A slave with a single 16-bit integer holding
register of value 5 declared at address 0: after `init`, the claim expects
`read_holding_register(0, 0) = 5`, but the method decoder of
`sdplc/modbus.py` scales the register count by 8 instead of 16
(`len(bits) * 8`), so the single-register payload matches no width branch
and the read raises `Invalid length ... got 1` instead of returning the
value.  The third conjunct shows the registered metadata (address 0,
declared size 16, kind int), the fourth that the module-level decoder of
`sdplc/modbus/__init__.py` decodes the same payload to 5 — the value the
claim expects. -/
theorem read_holding_register_invalid_width :
    ((((SimPLCModBus.new.create_slave 0).create_holding_register 0 0
        (.int 5) 16).1.init).read_holding_register 0 0
      = .error (.invalidWidth 1))
  ∧ (SimPLCModBus.decoder .big .big [5] .int = .error (.invalidWidth 1))
  ∧ ((((SimPLCModBus.new.create_slave 0).create_holding_register 0 0
        (.int 5) 16).1.slaves 0).map
        (fun sl => sl.holding_registers.map fun r => (r.address, r.size, r.type))
      = some [(0, 16, .int)])
  ∧ decoder [5] .int .big .big = .ok (.int 5) :=
  ⟨rfl, rfl, rfl, rfl⟩

/-! ### Atomicity of add_Node (C9) -/

/-- C9 counterexample.  Adding node B whose 16-bit window at address 1
overlaps node A's 32-bit window at address 0 fails with `AlreadyOccupied`,
yet the registry is *not* left unchanged: B was appended before the
allocation attempt and remains present. -/
theorem add_Node_no_rollback_cex :
    let cfg : SDPLCConfig := ⟨some .ModBus, none, none⟩
    let st0 : SDPLC := ⟨[], [], [], fun _ => none, SimPLCModBus.new, [], []⟩
    let nodeA : Node := ⟨"A", .int 1, some ⟨0, 0, .h, 32⟩, none⟩
    let nodeB : Node := ⟨"B", .int 2, some ⟨0, 1, .h, 16⟩, none⟩
    let st1 := (SDPLC.add_Node cfg (fun _ => none) st0 nodeA).1
    let r := SDPLC.add_Node cfg (fun _ => none) st1 nodeB
    r.2 = some PyErr.alreadyOccupied ∧ r.1.nodes ≠ st1.nodes ∧ nodeB ∈ r.1.nodes := by
  refine ⟨rfl, by decide, by decide⟩

/-- C9 (amended).  When allocating the Modbus register(s) for a new node
fails with `AlreadyOccupied`, `add_Node` propagates the error and the
slave's memory map is unchanged, but the registry append — performed as
the first statement of `add_Node` — is not rolled back: the node registry
becomes `nodes ++ [node]`. -/
theorem add_Node_already_occupied (cfg : SDPLCConfig)
    (browse : String → Option Nat) (st : SDPLC) (node : Node)
    (mbc : ModBusRegConfig) (sl : ModBusSlave)
    (hserver : cfg.server = some .ModBus) (hclient : cfg.client ≠ some .OPCUA)
    (hmb : node.modbus = some mbc) (htype : mbc.type = .h)
    (hsl : st.modbusServer.slaves mbc.slave = some sl)
    (hocc : ((List.range (mbc.register_size / 16)).any
        fun i => sl.holding_registers_memory_occupancy (mbc.address + i)) = true) :
    (SDPLC.add_Node cfg browse st node).2 = some .alreadyOccupied
  ∧ (SDPLC.add_Node cfg browse st node).1.nodes = st.nodes ++ [node]
  ∧ (SDPLC.add_Node cfg browse st node).1.modbusServer.slaves mbc.slave = some sl := by
  rw [add_Node_server_modbus cfg browse st node hserver hclient]
  have hadd := add_holding_register_of_occupied sl mbc.address node.value
    mbc.register_size st.modbusServer.byte_order st.modbusServer.word_order hocc
  simp only [SDPLC.add_Node_modbus, hserver, if_pos, hmb, htype, hsl, Option.isSome_some,
    if_true, SimPLCModBus.create_holding_register, hadd]
  exact ⟨trivial, trivial, trivial⟩

/-- Witness for C9 (amended claim) at the counterexample input. -/
theorem add_Node_already_occupied_witness :
    ((SDPLC.add_Node ⟨some .ModBus, none, none⟩ (fun _ => none)
        (SDPLC.add_Node ⟨some .ModBus, none, none⟩ (fun _ => none)
          ⟨[], [], [], fun _ => none, SimPLCModBus.new, [], []⟩
          ⟨"A", .int 1, some ⟨0, 0, .h, 32⟩, none⟩).1
        ⟨"B", .int 2, some ⟨0, 1, .h, 16⟩, none⟩).2 = some .alreadyOccupied)
  ∧ ((SDPLC.add_Node ⟨some .ModBus, none, none⟩ (fun _ => none)
        (SDPLC.add_Node ⟨some .ModBus, none, none⟩ (fun _ => none)
          ⟨[], [], [], fun _ => none, SimPLCModBus.new, [], []⟩
          ⟨"A", .int 1, some ⟨0, 0, .h, 32⟩, none⟩).1
        ⟨"B", .int 2, some ⟨0, 1, .h, 16⟩, none⟩).1.nodes
      = (SDPLC.add_Node ⟨some .ModBus, none, none⟩ (fun _ => none)
          ⟨[], [], [], fun _ => none, SimPLCModBus.new, [], []⟩
          ⟨"A", .int 1, some ⟨0, 0, .h, 32⟩, none⟩).1.nodes
        ++ [⟨"B", .int 2, some ⟨0, 1, .h, 16⟩, none⟩]) :=
  ⟨(add_Node_already_occupied ⟨some .ModBus, none, none⟩ (fun _ => none) _ _
      ⟨0, 1, .h, 16⟩ ((ModBusSlave.new 0).add_holding_register 0 (.int 1) 32 .big .big).1
      rfl (by simp) rfl rfl rfl (by decide)).1,
   (add_Node_already_occupied ⟨some .ModBus, none, none⟩ (fun _ => none) _ _
      ⟨0, 1, .h, 16⟩ ((ModBusSlave.new 0).add_holding_register 0 (.int 1) 32 .big .big).1
      rfl (by simp) rfl rfl rfl (by decide)).2.1⟩

/-! ### Write path (C7) -/

/-- C7 counterexample.  A node declared with integer variant (`value =
int 0`) receives a float through `write_node`: no `TypeError` is raised
(`r.2 = none`) and the cached value becomes the float as provided — the
node's variant is changed silently, with no normalisation to the declared
variant. -/
theorem write_node_no_normalization_cex :
    let st : SDPLC :=
      ⟨[⟨"n", .int 0, none, none⟩], [], [], fun _ => none, SimPLCModBus.new, [], []⟩
    let r := SDPLC.write_node ⟨none, none, none⟩ st "n" (.float 7)
    r.2 = none ∧ r.1.nodes = [⟨"n", .float 7, none, none⟩] := by
  refine ⟨rfl, rfl⟩

/-- C7 (amended).  For every registered node, `write_node` stores the
provided value *unchanged* as the cached value (`node.value = value`, no
normalisation to the declared scalar variant and no `TypeError`); only the
fan-outs to coils and discrete inputs pass the value through `bool()`. -/
theorem write_node_stores_raw (cfg : SDPLCConfig) (st : SDPLC) (qn : String)
    (v : PyValue) (node : Node)
    (hfind : st.nodes.find? (fun n => n.qualified_name = qn) = some node) :
    (SDPLC.write_node cfg st qn v).1.nodes
      = updateFirst (fun n => n.qualified_name = qn)
          (fun _ => { node with value := v }) st.nodes := by
  simp only [SDPLC.write_node, hfind]
  split
  · rename_i st2 e heq
    repeat' split at heq
    all_goals injection heq with h1 h2
    all_goals subst h1
    all_goals rfl
  · rename_i st2 heq
    have hst2 : st2.nodes = updateFirst (fun n => n.qualified_name = qn)
        (fun _ => { node with value := v }) st.nodes := by
      repeat' split at heq
      all_goals injection heq with h1 h2
      all_goals subst h1
      all_goals rfl
    repeat' split
    all_goals exact hst2

/-- Witness for C7 (amended claim) at the counterexample input. -/
theorem write_node_stores_raw_witness :
    (([⟨"n", .int 0, none, none⟩] : List Node).find?
        (fun n => n.qualified_name = "n") = some ⟨"n", .int 0, none, none⟩)
  ∧ (SDPLC.write_node ⟨none, none, none⟩
        ⟨[⟨"n", .int 0, none, none⟩], [], [], fun _ => none, SimPLCModBus.new, [], []⟩
        "n" (.float 7)).1.nodes
      = updateFirst (fun n => n.qualified_name = "n")
          (fun _ => { (⟨"n", .int 0, none, none⟩ : Node) with value := .float 7 })
          [⟨"n", .int 0, none, none⟩] :=
  ⟨by decide,
    write_node_stores_raw ⟨none, none, none⟩
      ⟨[⟨"n", .int 0, none, none⟩], [], [], fun _ => none, SimPLCModBus.new, [], []⟩
      "n" (.float 7) ⟨"n", .int 0, none, none⟩ (by decide)⟩

/-! ### Sync engine (C1, C6) -/

theorem sync_node_noop (cfg : SDPLCConfig) (st : SDPLC) (node : Node)
    (h : authReadOk cfg st node = true) :
    SDPLC.sync_node cfg st node = .ok (st, node) := by
  unfold authReadOk at h
  unfold SDPLC.sync_node
  cases hcs : cfg.server with
  | none => simp [hcs]
  | some p =>
    cases p with
    | OPCUA =>
      rw [hcs] at h
      simp only [hcs, reduceCtorEq, Option.some.injEq, if_pos rfl]
      cases hv : st.opcuaVariables node.qualified_name with
      | none => rw [hv] at h; cases h
      | some v =>
        rw [hv] at h
        simp only [] at h
        simp [hv, h]
    | ModBus =>
      rw [hcs] at h
      simp only [hcs]
      cases hmb : node.modbus with
      | none => rw [hmb] at h; cases h
      | some mbc =>
        rw [hmb] at h
        simp only [] at h
        cases hread : (match mbc.type with
          | RegKind.c => (st.modbusServer.read_coil mbc.slave mbc.address).map PyValue.bool
          | RegKind.d =>
            (st.modbusServer.read_discrete_input mbc.slave mbc.address).map PyValue.bool
          | RegKind.h => st.modbusServer.read_holding_register mbc.slave mbc.address
          | RegKind.i => st.modbusServer.read_input_register mbc.slave mbc.address) with
        | error e => rw [hread] at h; simp at h
        | ok v =>
          rw [hread] at h
          simp only [] at h
          simp [hmb, hread, h]

/-- C6.  If no external client writes occurred — the authoritative
protocol view still reads back (successfully) as the node's cached value —
then running the sync reconciler any number of times leaves the whole
state unchanged: the cached value, the OPC UA server view, the Modbus
server view and the upstream write log are all exactly as before. -/
theorem sync_iter_idempotent (cfg : SDPLCConfig) (st : SDPLC) (node : Node)
    (h : authReadOk cfg st node = true) (n : Nat) :
    SDPLC.sync_iter cfg n st node = .ok (st, node) := by
  have h1 := sync_node_noop cfg st node h
  induction n with
  | zero => rfl
  | succ n ih =>
    unfold SDPLC.sync_iter
    rw [h1]
    exact ih

/-- Witness for C6: a coil node served over Modbus whose server view reads
back as the cached value; three sync ticks change nothing. -/
theorem sync_iter_idempotent_witness :
    let cfg : SDPLCConfig := ⟨some .ModBus, none, none⟩
    let st0 : SDPLC := ⟨[], [], [], fun _ => none, SimPLCModBus.new, [], []⟩
    let nodeC : Node := ⟨"C", .bool true, some ⟨0, 0, .c, 16⟩, none⟩
    let st1 := (SDPLC.add_Node cfg (fun _ => none) st0 nodeC).1
    let st2 := { st1 with modbusServer := st1.modbusServer.init }
    authReadOk cfg st2 nodeC = true
      ∧ SDPLC.sync_iter cfg 3 st2 nodeC = .ok (st2, nodeC) := by
  intro cfg st0 nodeC st1 st2
  exact ⟨rfl, sync_iter_idempotent cfg st2 nodeC rfl 3⟩

/-- C1 (failing evaluation).  A node with both bindings (`Blender`: coil
at slave 0 address 0, plus an OPC UA binding), registered with
`server = ModBus` and no external changes.  The reconciler runs once and
performs no fan-out to the other local protocol: the Modbus server view
reads `true`, but the OPC UA server has no variable for the node at all
(`add_Node` only registers OPC UA variables when the server role is
OPC UA, and `sync_node` contains no write to the OPC UA address space —
its fan-out branch on the ModBus-server side is literally `pass`), so the
two protocol views cannot agree after the sync tick. -/
theorem sync_no_local_fanout :
    let cfg : SDPLCConfig := ⟨some .ModBus, none, none⟩
    let st0 : SDPLC := ⟨[], [], [], fun _ => none, SimPLCModBus.new, [], []⟩
    let blender : Node :=
      ⟨"Blender", .bool true, some ⟨0, 0, .c, 16⟩, some ⟨"root", "root", none⟩⟩
    let st1 := (SDPLC.add_Node cfg (fun _ => none) st0 blender).1
    let st2 := { st1 with modbusServer := st1.modbusServer.init }
    SDPLC.sync_node cfg st2 blender = .ok (st2, blender)
      ∧ st2.modbusServer.read_coil 0 0 = .ok true
      ∧ st2.opcuaVariables "Blender" = none :=
  ⟨rfl, rfl, rfl⟩

/-! ### Client read path (C10) -/

/-- C10.  When a client role is configured and the upstream read
performed by `read_node` errors (an OPC UA client raise, or a Modbus
response with `isError()`), `read_node` propagates an error and the state
— in particular the node's cached value — is exactly the input state; the
cached value is assigned only after a successful, non-error response
(third conjunct: on success the registry holds the freshly read value). -/
theorem read_node_error_keeps_cache (cfg : SDPLCConfig) (up : Upstream)
    (st : SDPLC) (qn : String) (node : Node)
    (hfind : st.nodes.find? (fun n => n.qualified_name = qn) = some node) :
    (∀ oc nid e, cfg.client = some .OPCUA → node.opcua = some oc →
      oc.node_id = some nid → up.opcRead nid = .error e →
      SDPLC.read_node cfg up st qn = (st, .error e))
  ∧ (∀ mbc, cfg.client = some .ModBus → node.modbus = some mbc →
      (∀ k a c s, (up.mbRead k a c s).isError = true) →
      SDPLC.read_node cfg up st qn = (st, .error .runtimeError))
  ∧ (∀ oc nid v, cfg.client = some .OPCUA → node.opcua = some oc →
      oc.node_id = some nid → up.opcRead nid = .ok v →
      SDPLC.read_node cfg up st qn
        = ({ st with
              nodes := updateFirst (fun n => n.qualified_name = qn)
                (fun n => { n with value := v }) st.nodes }, .ok v)) := by
  refine ⟨?_, ?_, ?_⟩
  · intro oc nid e hcl hoc hnid hread
    simp [SDPLC.read_node, hfind, hcl, hoc, hnid, hread]
  · intro mbc hcl hmb hup
    cases htype : mbc.type <;>
      simp [SDPLC.read_node, hfind, hcl, hmb, htype, hup]
  · intro oc nid v hcl hoc hnid hread
    simp [SDPLC.read_node, hfind, hcl, hoc, hnid, hread]

/-- Witness for C10: a registered holding-register node, a Modbus client
whose reads all return error responses. -/
theorem read_node_error_keeps_cache_witness :
    let up : Upstream := ⟨fun _ => .error .runtimeError, fun _ _ _ _ => ⟨true, [], []⟩⟩
    let st : SDPLC := ⟨[⟨"n", .int 0, some ⟨0, 0, .h, 16⟩, none⟩], [], [],
      fun _ => none, SimPLCModBus.new, [], []⟩
    (st.nodes.find? (fun n => n.qualified_name = "n")
        = some ⟨"n", .int 0, some ⟨0, 0, .h, 16⟩, none⟩)
      ∧ (∀ k a c s, (up.mbRead k a c s).isError = true)
      ∧ SDPLC.read_node ⟨none, some .ModBus, none⟩ up st "n"
          = (st, .error .runtimeError) :=
  ⟨by decide, fun _ _ _ _ => rfl,
    (read_node_error_keeps_cache ⟨none, some .ModBus, none⟩
      ⟨fun _ => .error .runtimeError, fun _ _ _ _ => ⟨true, [], []⟩⟩
      ⟨[⟨"n", .int 0, some ⟨0, 0, .h, 16⟩, none⟩], [], [],
        fun _ => none, SimPLCModBus.new, [], []⟩
      "n" ⟨"n", .int 0, some ⟨0, 0, .h, 16⟩, none⟩ (by decide)).2.1
      ⟨0, 0, .h, 16⟩ rfl rfl (fun _ _ _ _ => rfl)⟩
